import Mathlib

/-!
Verification development for the simple-speech library: a shallow embedding of
its two facades (speech synthesis and speech recognition) together with proofs
about the behaviour the specification ascribes to them.

Conventions of the embedding:
* JavaScript numbers are modelled as rationals (`ℚ`); the numeric claims under
  scrutiny concern clamping to closed intervals, which floats realise the same
  way for the inputs involved.
* The host voice catalog is an explicit `List Voice` argument: a resolver is a
  function from the catalog available at resolution time to either a list of
  matching voices or the thrown error message (`Except String`).
* A JavaScript promise that is settled by callbacks is modelled by the value
  that determines the settlement; `speak`'s zero-argument form is modelled by
  `SpeakOutcome`, whose `neverSettles` branch records the source fact that an
  exception thrown inside the `async` promise executor invokes neither
  `resolve` nor `reject`, leaving the returned promise forever pending.
* A live recognition session is modelled by the sequence of host events it
  fires; the subscription logic is a pure function from that sequence to the
  sequence of observer callback invocations.
-/

/-- A host-reported voice descriptor (src/synthesis.ts, `Voice`). -/
structure Voice where
  lang : String
  name : String
  localService : Bool
  voiceURI : String
deriving DecidableEq, Repr

/-- The stored synthesis options (src/synthesis.ts, `BaseOptions`). -/
structure BaseOptions where
  text : String
  volume : ℚ
  rate : ℚ
  pitch : ℚ
deriving DecidableEq, Repr

/-- The argument of `Synthesis.use`: a partial `BaseOptions` together with an
optional voice selector (`Partial<BaseOptions> & U` with `U extends
Partial<V>`).  Absent fields are `none`. -/
structure SynthesisConfig where
  text : Option String := none
  volume : Option ℚ := none
  rate : Option ℚ := none
  pitch : Option ℚ := none
  lang : Option String := none
  name : Option String := none
  localService : Option Bool := none
  voiceURI : Option String := none
deriving DecidableEq, Repr

/-- `voiceOptions.every(([k, v]) => v === voice[k])`: a voice matches a config
when every selector attribute present in the config equals the voice's
attribute strictly. -/
def matchesSelector (c : SynthesisConfig) (v : Voice) : Bool :=
  (match c.lang with | none => true | some l => v.lang == l) &&
  (match c.name with | none => true | some n => v.name == n) &&
  (match c.localService with | none => true | some b => v.localService == b) &&
  (match c.voiceURI with | none => true | some u => v.voiceURI == u)

/-- Rendering of the selector attributes present in a config, used in the
"No voices found" error message (the source serialises them with
`JSON.stringify`). -/
def selectorDescription (c : SynthesisConfig) : String :=
  String.intercalate ", " (List.filterMap id
    [c.lang.map (fun l => "lang: " ++ l),
     c.name.map (fun n => "name: " ++ n),
     c.localService.map (fun b => "localService: " ++ toString b),
     c.voiceURI.map (fun u => "voiceURI: " ++ u)])

/-- The message of the error thrown when the filtered voice set is empty
(src/synthesis.ts line 73). -/
def noVoicesMessage (c : SynthesisConfig) : String :=
  "No voices found with the following options: " ++ selectorDescription c

/-- `clamp = (min, max) => v => Math.min(Math.max(v, min), max)`
(src/synthesis.ts line 126). -/
def clamp (lo hi v : ℚ) : ℚ := min (max v lo) hi

/-- The synthesis facade: stored options plus the voice resolver.  The
resolver is a function of the host catalog available at resolution time
(`getVoices : () => Promise<SpeechSynthesisVoice[]>` in the source; the
catalog stands for what `speechSynthesis.getVoices()` reports). -/
structure Synthesis where
  options : BaseOptions
  getVoices : List Voice → Except String (List Voice)

/-- `Synthesis.use` (src/synthesis.ts lines 57-82): merges option fields with
clamping and builds the new resolver by filtering the result of the
receiver's own resolver — `(await this.getVoices()).filter(...)` — throwing
when the filtered set is empty. -/
def Synthesis.use (s : Synthesis) (config : SynthesisConfig) : Synthesis :=
  { options :=
      { text := config.text.getD s.options.text
        volume := clamp 0 1 (config.volume.getD s.options.volume)
        rate := clamp (1/10) 10 (config.rate.getD s.options.rate)
        pitch := clamp 0 2 (config.pitch.getD s.options.pitch) }
    getVoices := fun catalog =>
      match s.getVoices catalog with
      | Except.error e => Except.error e
      | Except.ok voices =>
        let filtered := voices.filter (matchesSelector config)
        if filtered.isEmpty then Except.error (noVoicesMessage config)
        else Except.ok filtered }

/-- `resetVoice = () => new Synthesis(this.options, Synthesis.getAllVoices)`
(src/synthesis.ts line 55): same options, resolver restored to the full host
catalog. -/
def Synthesis.resetVoice (s : Synthesis) : Synthesis :=
  { options := s.options, getVoices := fun catalog => Except.ok catalog }

/-- The default exported instance
`new Synthesis({ volume: 1, rate: 1, pitch: 1, text: '' }, Synthesis.getAllVoices)`
(src/synthesis.ts line 122). -/
def synthesisDefault : Synthesis :=
  { options := { text := "", volume := 1, rate := 1, pitch := 1 }
    getVoices := fun catalog => Except.ok catalog }

/-- The utterance handed to `speechSynthesis.speak` by the zero-argument form
of `speak` (src/synthesis.ts lines 107-118).  `voice` is
`(await this.getVoices())[0]`, which is `undefined` (`none`) on an empty
list. -/
structure Utterance where
  voice : Option Voice
  text : String
  volume : ℚ
  rate : ℚ
  pitch : ℚ
deriving DecidableEq, Repr

/-- Settlement-relevant outcome of the zero-argument `speak`.  `dispatched`
means `speechSynthesis.speak` was invoked with the given utterance (the
promise then settles through the utterance's `onend`/`onerror` callbacks).
`neverSettles` records what happens when the voice resolver throws: the
exception is raised inside the `async` executor of `new Promise(async
(resolve, reject) => ...)`, so neither `resolve` nor `reject` is ever
invoked and the returned promise stays pending forever (the exception
surfaces only as an unhandled promise rejection). -/
inductive SpeakOutcome where
  | dispatched (u : Utterance)
  | neverSettles
deriving DecidableEq, Repr

/-- Zero-argument `speak` (src/synthesis.ts lines 106-118), evaluated against
the given host catalog. -/
def Synthesis.speakNoArgs (s : Synthesis) (catalog : List Voice) : SpeakOutcome :=
  match s.getVoices catalog with
  | Except.error _ => SpeakOutcome.neverSettles
  | Except.ok voices =>
      SpeakOutcome.dispatched
        { voice := voices.head?
          text := s.options.text
          volume := s.options.volume
          rate := s.options.rate
          pitch := s.options.pitch }

/-- `speak(options)` = `this.use(args[0]).speak()` (src/synthesis.ts line 105). -/
def Synthesis.speakOpts (s : Synthesis) (config : SynthesisConfig)
    (catalog : List Voice) : SpeakOutcome :=
  (s.use config).speakNoArgs catalog

/-- `speak(text)` = `this.use({ text: args[0] }).speak()` (src/synthesis.ts line 104). -/
def Synthesis.speakText (s : Synthesis) (text : String)
    (catalog : List Voice) : SpeakOutcome :=
  (s.use { text := some text }).speakNoArgs catalog

/-- `speak(text, options)` = `this.use({ ...args[1], text: args[0] }).speak()`
(src/synthesis.ts line 102). -/
def Synthesis.speakTextWith (s : Synthesis) (text : String)
    (config : SynthesisConfig) (catalog : List Voice) : SpeakOutcome :=
  (s.use { config with text := some text }).speakNoArgs catalog

/-- A chain of `use` calls applied in order. -/
def useChain (s : Synthesis) (cs : List SynthesisConfig) : Synthesis :=
  cs.foldl Synthesis.use s

/-- The documented domains of the numeric synthesis options. -/
def inDomain (o : BaseOptions) : Prop :=
  0 ≤ o.volume ∧ o.volume ≤ 1 ∧ 1/10 ≤ o.rate ∧ o.rate ≤ 10 ∧
  0 ≤ o.pitch ∧ o.pitch ≤ 2

/-- Follows the specification's words, for comparison with the source-derived
resolver: after two derives the selector attributes in force are the
last-given ones, each attribute provided by the second call replacing the
first call's value. -/
def selOverride (c1 c2 : SynthesisConfig) : SynthesisConfig :=
  { text := c2.text <|> c1.text
    volume := c2.volume <|> c1.volume
    rate := c2.rate <|> c1.rate
    pitch := c2.pitch <|> c1.pitch
    lang := c2.lang <|> c1.lang
    name := c2.name <|> c1.name
    localService := c2.localService <|> c1.localService
    voiceURI := c2.voiceURI <|> c1.voiceURI }

/-- A concrete catalog voice used in counterexamples and witnesses. -/
def fredVoice : Voice :=
  { lang := "en-US", name := "Fred", localService := true, voiceURI := "Fred" }

/-- A second concrete catalog voice. -/
def danielVoice : Voice :=
  { lang := "en-GB", name := "Daniel", localService := true, voiceURI := "Daniel" }

/-- A tiny concrete host catalog. -/
def smallCatalog : List Voice := [fredVoice, danielVoice]

/-- Selector picking Fred by name. -/
def fredSelector : SynthesisConfig := { name := some "Fred" }

/-- Selector picking Daniel by name. -/
def danielSelector : SynthesisConfig := { name := some "Daniel" }

/-- Selector matching no voice of `smallCatalog`. -/
def missingSelector : SynthesisConfig := { name := some "Missing" }

/-- One candidate of a host recognition result (`SpeechRecognitionAlternative`):
transcript plus confidence. -/
structure SpeechAlt where
  transcript : String
  confidence : ℚ
deriving DecidableEq, Repr

/-- One host recognition result (`SpeechRecognitionResult`): its finality flag
plus the ordered candidate list. -/
structure SpeechResult where
  isFinal : Bool
  alts : List SpeechAlt
deriving DecidableEq, Repr

/-- A native host event with its tag attached (src/recognition.ts,
`TaggedEvent`).  A `result` event carries the indexed result list and the
current `resultIndex`; the remaining tags are the lifecycle events. -/
inductive TaggedEvent where
  | audioend
  | audiostart
  | endEvt
  | error
  | nomatch
  | result (results : List SpeechResult) (resultIndex : Nat)
  | soundend
  | soundstart
  | speechend
  | speechstart
  | start
deriving DecidableEq, Repr

/-- The projection `a => ({ transcript: a.transcript, confidence: a.confidence })`
applied to each host candidate (src/recognition.ts lines 95-98). -/
def projectAlt (a : SpeechAlt) : SpeechAlt :=
  { transcript := a.transcript, confidence := a.confidence }

/-- The normalized event type (src/recognition.ts, `RecognitionEvent`): a
reshaped result tagged `interim` or `final`, or a non-result native event
passed through. -/
inductive RecognitionEvent where
  | interim (alternatives : List SpeechAlt)
  | final (alternatives : List SpeechAlt)
  | passthrough (e : TaggedEvent)
deriving DecidableEq, Repr

/-- `toRecognitionEvent` (src/recognition.ts lines 91-100).  On a `result`
event it inspects `e.results[e.resultIndex]`; when that index is out of
range the JavaScript property accesses throw a TypeError inside the event
listener, so no normalized event is produced (`none`).  Every other tag is
returned unchanged. -/
def toRecognitionEvent : TaggedEvent → Option RecognitionEvent
  | TaggedEvent.result results resultIndex =>
      match results[resultIndex]? with
      | some r =>
          some (if r.isFinal then RecognitionEvent.final (r.alts.map projectAlt)
                else RecognitionEvent.interim (r.alts.map projectAlt))
      | none => none
  | e => some (RecognitionEvent.passthrough e)

/-- Whether a native event carries the `result` tag. -/
def isResultEvent : TaggedEvent → Bool
  | TaggedEvent.result _ _ => true
  | _ => false

/-- `RecognitionOptions` (src/recognition.ts lines 5-11). -/
structure RecognitionOptions where
  lang : String
  continuous : Bool
  interimResults : Bool
  maxAlternatives : Nat
deriving DecidableEq, Repr

/-- The argument of `Recognition.use`: `Partial<RecognitionOptions>`. -/
structure RecognitionOverride where
  lang : Option String := none
  continuous : Option Bool := none
  interimResults : Option Bool := none
  maxAlternatives : Option Nat := none
deriving DecidableEq, Repr

/-- The override with no field present. -/
def emptyOverride : RecognitionOverride := {}

/-- The recognition facade (src/recognition.ts, class `Recognition`). -/
structure Recognition where
  options : RecognitionOptions
deriving DecidableEq, Repr

/-- `use = options => new Recognition({ ...this.options, ...options })`
(src/recognition.ts line 18): spread of the override over the stored
options. -/
def Recognition.use (r : Recognition) (p : RecognitionOverride) : Recognition :=
  ⟨{ lang := p.lang.getD r.options.lang
     continuous := p.continuous.getD r.options.continuous
     interimResults := p.interimResults.getD r.options.interimResults
     maxAlternatives := p.maxAlternatives.getD r.options.maxAlternatives }⟩

/-- The default exported instance (src/recognition.ts lines 71-76). -/
def recognitionDefault : Recognition :=
  ⟨{ lang := "en-US", continuous := false, interimResults := false,
     maxAlternatives := 1 }⟩

/-- The configuration `listen` assigns onto the fresh host session
(src/recognition.ts lines 22-25): only `lang`, `continuous` and
`interimResults` are set, the latter two to literal `false`. -/
structure ListenSession where
  lang : String
  continuous : Bool
  interimResults : Bool
deriving DecidableEq, Repr

/-- The host session configuration produced by `listen`. -/
def Recognition.listenSession (r : Recognition) : ListenSession :=
  { lang := r.options.lang, continuous := false, interimResults := false }

/-- Settlement of the promise returned by `listen`. -/
inductive ListenOutcome where
  | resolved (transcript : String)
  | rejected
  | pending
deriving DecidableEq, Repr

/-- Whether a native event has a handler attached by `listen` (`onerror` and
`onresult` are the only handlers installed). -/
def settlesListen : TaggedEvent → Bool
  | TaggedEvent.error => true
  | TaggedEvent.result _ _ => true
  | _ => false

/-- The settlement of `listen`'s promise as a function of the host event
sequence (src/recognition.ts lines 20-30): the first `error` event rejects;
the first `result` event resolves with
`e.results[e.resultIndex][0].transcript`.  A `result` event whose index or
candidate list is out of range makes those property accesses throw inside
the handler, settling nothing; later events are still handled.  A promise
already settled ignores later calls, hence the recursion stops at the first
settling event. -/
def listenOutcome : List TaggedEvent → ListenOutcome
  | [] => ListenOutcome.pending
  | TaggedEvent.error :: _ => ListenOutcome.rejected
  | TaggedEvent.result results i :: rest =>
      (match results[i]? with
       | some r =>
           match r.alts[0]? with
           | some a => ListenOutcome.resolved a.transcript
           | none => listenOutcome rest
       | none => listenOutcome rest)
  | _ :: rest => listenOutcome rest

/-- An invocation of one of the observer's callbacks. -/
inductive ObserverCall where
  | next (e : RecognitionEvent)
  | complete
  | error
deriving DecidableEq, Repr

/-- Whether a callback invocation is terminal (`complete` or `error`). -/
def isTerminal : ObserverCall → Bool
  | ObserverCall.complete => true
  | ObserverCall.error => true
  | _ => false

/-- The observer invocations triggered by one host event under
`Recognition.subscribe` (src/recognition.ts lines 43-63).  Every tag in the
registration list gets a listener forwarding the normalized event to
`subscriber.next`; a second listener on `end`, registered afterwards,
invokes `subscriber.complete`.  Listeners fire in registration order, and a
`result` event whose normalization throws produces no `next` call. -/
def callsForEvent (e : TaggedEvent) : List ObserverCall :=
  (match toRecognitionEvent e with
   | some ev => [ObserverCall.next ev]
   | none => []) ++
  (match e with
   | TaggedEvent.endEvt => [ObserverCall.complete]
   | _ => [])

/-- The full observer invocation sequence of a subscription, as a function of
the host event sequence. -/
def subscribeTrace : List TaggedEvent → List ObserverCall
  | [] => []
  | e :: rest => callsForEvent e ++ subscribeTrace rest

/-- Holds when any terminal callback in the list is its last element: once
`complete` or `error` has been invoked, nothing further is invoked. -/
def noCallsAfterTerminal : List ObserverCall → Bool
  | [] => true
  | c :: rest => if isTerminal c then rest.isEmpty else noCallsAfterTerminal rest

/-- The host recognition session as seen through its start/stop control. -/
inductive SessionState where
  | running
  | stopped
deriving DecidableEq, Repr

/-- The host `stop()` control: stopping a session leaves it stopped; invoking
it on an already-stopped session is a specified no-op and does not throw. -/
def hostStop : SessionState → SessionState := fun _ => SessionState.stopped

/-- The handle returned by `subscribe`, modelled with the underlying session
state plus a counter of how many times the host stop control has been
invoked through it. -/
structure SubscriptionHandle where
  session : SessionState
  stopCalls : Nat
deriving DecidableEq, Repr

/-- `unsubscribe: () => recognition.stop()` (src/recognition.ts line 66): each
call invokes the host stop control on the session once. -/
def unsubscribe (h : SubscriptionHandle) : SubscriptionHandle :=
  { session := hostStop h.session, stopCalls := h.stopCalls + 1 }

/-- A concrete host candidate used in counterexamples and witnesses. -/
def altA : SpeechAlt := { transcript := "alpha", confidence := 9/10 }

/-- A second concrete host candidate. -/
def altB : SpeechAlt := { transcript := "beta", confidence := 1/2 }

/-! ### Helper lemmas (shared) -/

theorem clamp_of_mem {lo hi v : ℚ} (h1 : lo ≤ v) (h2 : v ≤ hi) : clamp lo hi v = v := by
  rw [clamp, max_eq_left h1, min_eq_left h2]

theorem clamp_of_ge {lo hi v : ℚ} (h : hi ≤ v) : clamp lo hi v = hi := by
  rw [clamp, min_eq_right (le_trans h (le_max_left v lo))]

theorem le_clamp {lo hi v : ℚ} (h : lo ≤ hi) : lo ≤ clamp lo hi v :=
  le_min (le_max_right v lo) h

theorem clamp_le_hi {lo hi v : ℚ} : clamp lo hi v ≤ hi := min_le_right _ _

theorem clamp_idem {lo hi v : ℚ} (h : lo ≤ hi) :
    clamp lo hi (clamp lo hi v) = clamp lo hi v :=
  clamp_of_mem (le_clamp h) clamp_le_hi

theorem use_options_inDomain (s : Synthesis) (c : SynthesisConfig) :
    inDomain ((s.use c).options) :=
  ⟨le_clamp (by norm_num), clamp_le_hi, le_clamp (by norm_num), clamp_le_hi,
   le_clamp (by norm_num), clamp_le_hi⟩

theorem useChain_inDomain (cs : List SynthesisConfig) (s : Synthesis)
    (h : inDomain s.options) : inDomain ((useChain s cs).options) := by
  induction cs generalizing s with
  | nil => exact h
  | cons c cs ih => exact ih (s.use c) (use_options_inDomain s c)

theorem errorCall_not_mem_callsForEvent (e : TaggedEvent) :
    ObserverCall.error ∉ callsForEvent e := by
  cases e <;> simp [callsForEvent, toRecognitionEvent]
  case result rs i => cases rs[i]? <;> simp

theorem complete_mem_callsForEvent_iff (e : TaggedEvent) :
    ObserverCall.complete ∈ callsForEvent e ↔ e = TaggedEvent.endEvt := by
  cases e <;> simp [callsForEvent, toRecognitionEvent]
  case result rs i => cases rs[i]? <;> simp

theorem callsForEvent_of_ne_end {e : TaggedEvent} (he : e ≠ TaggedEvent.endEvt) :
    callsForEvent e = [] ∨ ∃ ev, callsForEvent e = [ObserverCall.next ev] := by
  cases e
  case endEvt => exact absurd rfl he
  case result rs i =>
    unfold callsForEvent toRecognitionEvent
    cases h : rs[i]? with
    | none => left; simp [h]
    | some r =>
      right
      exact ⟨if r.isFinal then RecognitionEvent.final (r.alts.map projectAlt)
             else RecognitionEvent.interim (r.alts.map projectAlt), by simp [h]⟩
  all_goals exact Or.inr ⟨_, rfl⟩

theorem noCallsAfterTerminal_skip {e : TaggedEvent} (he : e ≠ TaggedEvent.endEvt)
    (ys : List ObserverCall) :
    noCallsAfterTerminal (callsForEvent e ++ ys) = noCallsAfterTerminal ys := by
  rcases callsForEvent_of_ne_end he with h | ⟨ev, h⟩ <;>
    rw [h] <;> simp [noCallsAfterTerminal, isTerminal]

theorem listenOutcome_skip {e : TaggedEvent} (h : settlesListen e = false)
    (l : List TaggedEvent) : listenOutcome (e :: l) = listenOutcome l := by
  cases e
  case error => simp [settlesListen] at h
  case result rs i => simp [settlesListen] at h
  all_goals rfl

/-! ### Claim theorems -/

/-- C1, counterexample: deriving with `{name: 'Fred'}` and then `{name:
'Daniel'}` resolves against the Fred-narrowed subset, yielding the
"no voices found" error, whereas re-filtering the full catalog by the
last-given selector (as the claim states) would yield Daniel. -/
theorem use_rederives_from_previous_counterexample :
    ((synthesisDefault.use fredSelector).use danielSelector).getVoices smallCatalog
      = Except.error (noVoicesMessage danielSelector) ∧
    smallCatalog.filter (matchesSelector (selOverride fredSelector danielSelector))
      = [danielVoice] ∧
    Except.error (noVoicesMessage danielSelector)
      ≠ (Except.ok [danielVoice] : Except String (List Voice)) := by
  refine ⟨rfl, rfl, fun h => Except.noConfusion h⟩

/-- C1 (amended): `use` builds the derived instance's resolver from the
receiver's own (possibly already narrowed) resolver, not from the full
catalog: a chain of two derives resolves to the full catalog filtered by
the conjunction of both calls' selector attributes (erroring as soon as a
stage filters to the empty set), so re-specifying an attribute with a
different value narrows within the earlier narrowing instead of replacing
it; only `resetVoice` restores the full catalog. -/
theorem use_chain_narrows_previous_resolver :
    (∀ (catalog : List Voice) (c1 c2 : SynthesisConfig),
      ((synthesisDefault.use c1).use c2).getVoices catalog =
        if (catalog.filter (matchesSelector c1)).isEmpty then
          Except.error (noVoicesMessage c1)
        else if (catalog.filter
            (fun v => matchesSelector c1 v && matchesSelector c2 v)).isEmpty then
          Except.error (noVoicesMessage c2)
        else
          Except.ok (catalog.filter
            (fun v => matchesSelector c1 v && matchesSelector c2 v))) ∧
    (∀ (s : Synthesis) (catalog : List Voice),
      s.resetVoice.getVoices catalog = Except.ok catalog ∧
      s.resetVoice.options = s.options) := by
  refine ⟨?_, fun s catalog => ⟨rfl, rfl⟩⟩
  intro catalog c1 c2
  have hff : (catalog.filter (matchesSelector c1)).filter (matchesSelector c2)
      = catalog.filter (fun v => matchesSelector c1 v && matchesSelector c2 v) := by
    rw [List.filter_filter]
    simp only [Bool.and_comm]
  simp only [Synthesis.use, synthesisDefault]
  by_cases h1 : (catalog.filter (matchesSelector c1)).isEmpty
  · simp [h1]
  · simp [h1, hff]

/-- C2 (code bug): with a selector matching no catalog voice, the derived
resolver errors, and the zero-argument `speak` then leaves its returned
promise forever pending instead of rejecting — the resolver's exception is
thrown inside the `async` promise executor, where it is swallowed as an
unhandled rejection without ever invoking `resolve` or `reject`. -/
theorem speak_pending_on_unresolvable_voice :
    (synthesisDefault.use missingSelector).getVoices smallCatalog
      = Except.error (noVoicesMessage missingSelector) ∧
    (synthesisDefault.use missingSelector).speakNoArgs smallCatalog
      = SpeakOutcome.neverSettles :=
  ⟨rfl, rfl⟩

/-- C3, counterexample: the subscription installs no terminal gating, so a
host event arriving after `end` is still forwarded: for the host sequence
`[end, start]` the observer receives a `next` call after `complete`. -/
theorem subscribe_call_after_complete_counterexample :
    noCallsAfterTerminal (subscribeTrace [TaggedEvent.endEvt, TaggedEvent.start])
      = false := rfl

/-- C3 (amended): provided the host fires `end` only as the final event of the
session, no observer callback follows a terminal callback: any `complete`
is the last invocation, it fires at most once, and `error` never fires. -/
theorem subscribe_terminal_exclusive_when_end_last :
    ∀ events : List TaggedEvent,
      (∀ e ∈ events.dropLast, e ≠ TaggedEvent.endEvt) →
      noCallsAfterTerminal (subscribeTrace events) = true := by
  intro events
  induction events with
  | nil => intro _; rfl
  | cons e rest ih =>
    intro h
    cases rest with
    | nil =>
      cases e
      case result rs i =>
        simp only [subscribeTrace, callsForEvent, toRecognitionEvent, List.append_nil]
        cases rs[i]? <;> rfl
      all_goals rfl
    | cons e2 rest2 =>
      have he : e ≠ TaggedEvent.endEvt := h e (List.mem_cons_self e _)
      have h2 : ∀ x ∈ (e2 :: rest2).dropLast, x ≠ TaggedEvent.endEvt := by
        intro x hx
        exact h x (List.mem_cons_of_mem e hx)
      rw [show subscribeTrace (e :: e2 :: rest2)
            = callsForEvent e ++ subscribeTrace (e2 :: rest2) from rfl,
        noCallsAfterTerminal_skip he]
      exact ih h2

/-- C3, witness: a conforming host sequence ending in `end` yields a trace
with the terminal callback last. -/
theorem subscribe_terminal_exclusive_witness :
    noCallsAfterTerminal (subscribeTrace [TaggedEvent.start, TaggedEvent.endEvt])
      = true :=
  subscribe_terminal_exclusive_when_end_last
    [TaggedEvent.start, TaggedEvent.endEvt] (by decide)

/-- C4, counterexample: a host `error` event is forwarded to the observer's
`next` callback; the observer's `error` callback is not invoked. -/
theorem subscribe_error_callback_counterexample :
    TaggedEvent.error ∈ [TaggedEvent.error] ∧
    ObserverCall.error ∉ subscribeTrace [TaggedEvent.error] ∧
    subscribeTrace [TaggedEvent.error]
      = [ObserverCall.next (RecognitionEvent.passthrough TaggedEvent.error)] := by
  exact ⟨List.mem_cons_self _ _, by decide, rfl⟩

/-- C4 (amended): when the host signals an error event the subscription
surfaces it as a `next` event tagged `error`; the observer's `error`
callback is never invoked for any host sequence; and `complete` is invoked
exactly when the host fires `end` (which, per host semantics, follows an
error, so an errored session also receives `complete`). -/
theorem subscribe_error_via_next :
    ∀ events : List TaggedEvent,
      (TaggedEvent.error ∈ events →
        ObserverCall.next (RecognitionEvent.passthrough TaggedEvent.error)
          ∈ subscribeTrace events) ∧
      ObserverCall.error ∉ subscribeTrace events ∧
      (ObserverCall.complete ∈ subscribeTrace events ↔ TaggedEvent.endEvt ∈ events) := by
  intro events
  induction events with
  | nil =>
    exact ⟨fun h => absurd h (List.not_mem_nil _), List.not_mem_nil _,
      by simp [subscribeTrace]⟩
  | cons e rest ih =>
    have htr : subscribeTrace (e :: rest) = callsForEvent e ++ subscribeTrace rest := rfl
    refine ⟨?_, ?_, ?_⟩
    · intro h
      rw [htr]
      rcases List.mem_cons.mp h with rfl | h
      · exact List.mem_append_left _ (by simp [callsForEvent, toRecognitionEvent])
      · exact List.mem_append_right _ (ih.1 h)
    · rw [htr]
      intro hmem
      rcases List.mem_append.mp hmem with h | h
      · exact errorCall_not_mem_callsForEvent e h
      · exact ih.2.1 h
    · rw [htr]
      constructor
      · intro hmem
        rcases List.mem_append.mp hmem with h | h
        · exact List.mem_cons.mpr (Or.inl ((complete_mem_callsForEvent_iff e).mp h).symm)
        · exact List.mem_cons.mpr (Or.inr (ih.2.2.mp h))
      · intro hmem
        rcases List.mem_cons.mp hmem with rfl | h
        · exact List.mem_append_left _ ((complete_mem_callsForEvent_iff _).mpr rfl)
        · exact List.mem_append_right _ (ih.2.2.mpr h)

/-- C4, witness: for the host sequence `[start, error]` the error is delivered
through `next` and the `error` callback never fires. -/
theorem subscribe_error_via_next_witness :
    ObserverCall.next (RecognitionEvent.passthrough TaggedEvent.error)
      ∈ subscribeTrace [TaggedEvent.start, TaggedEvent.error] ∧
    ObserverCall.error ∉ subscribeTrace [TaggedEvent.start, TaggedEvent.error] :=
  ⟨(subscribe_error_via_next [TaggedEvent.start, TaggedEvent.error]).1 (by decide),
   (subscribe_error_via_next [TaggedEvent.start, TaggedEvent.error]).2.1⟩

/-- C5, counterexample: the normalizer keeps every host-provided candidate; it
does not truncate to the configured max-alternatives.  With two candidates
and `maxAlternatives = 1`, the claim predicts one alternative but the code
produces two. -/
theorem toRecognitionEvent_length_counterexample :
    toRecognitionEvent (TaggedEvent.result [⟨true, [altA, altB]⟩] 0)
      = some (RecognitionEvent.final [altA, altB]) ∧
    RecognitionEvent.final [altA, altB] ≠ RecognitionEvent.final [altA] ∧
    [altA, altB].length = 2 ∧ min 2 1 = 1 := by
  refine ⟨rfl, ?_, rfl, rfl⟩
  intro h
  simp at h

/-- C5 (amended): non-`result` events pass through unchanged; a `result` event
becomes `interim` or `final` according to the current result's finality
flag, with the alternatives list rebuilt from all host-provided candidates
(transcript and confidence), so its length equals the host-provided count —
which coincides with `min(count, maxAlternatives)` exactly when the host
provides at most `maxAlternatives` candidates. -/
theorem toRecognitionEvent_spec :
    (∀ (results : List SpeechResult) (i : Nat) (r : SpeechResult),
        results[i]? = some r →
        toRecognitionEvent (TaggedEvent.result results i)
          = some (if r.isFinal then RecognitionEvent.final (r.alts.map projectAlt)
                  else RecognitionEvent.interim (r.alts.map projectAlt)) ∧
        (r.alts.map projectAlt).length = r.alts.length) ∧
    (∀ (alts : List SpeechAlt) (m : Nat), alts.length ≤ m →
        (alts.map projectAlt).length = min alts.length m) ∧
    (∀ e : TaggedEvent, isResultEvent e = false →
        toRecognitionEvent e = some (RecognitionEvent.passthrough e)) := by
  refine ⟨?_, ?_, ?_⟩
  · intro results i r h
    refine ⟨?_, List.length_map _ _⟩
    simp [toRecognitionEvent, h]
  · intro alts m h
    rw [List.length_map, min_eq_left h]
  · intro e he
    cases e
    case result rs i => simp [isResultEvent] at he
    all_goals rfl

/-- C5, witness: a non-final result with one candidate normalizes to `interim`
with that candidate, and one candidate under `maxAlternatives = 3` has
length `min 1 3`. -/
theorem toRecognitionEvent_spec_witness :
    toRecognitionEvent (TaggedEvent.result [⟨false, [altA]⟩] 0)
      = some (RecognitionEvent.interim ([altA].map projectAlt)) ∧
    ([altA].map projectAlt).length = min 1 3 :=
  ⟨(toRecognitionEvent_spec.1 [⟨false, [altA]⟩] 0 ⟨false, [altA]⟩ rfl).1,
   toRecognitionEvent_spec.2.1 [altA] 3 (by norm_num)⟩

/-- C6: `listen` configures the fresh host session with the stored language
and literal `continuous = false`, `interimResults = false` regardless of the
stored configuration; its promise resolves with the index-0 transcript of
the first result event (under `interimResults = false` a conforming host
delivers only final results) and rejects when an error event arrives before
any result; in particular the default `en-US` one-shot configuration and a
single final result with candidate `{transcript: 'hello world', confidence:
0.87}` resolve to `"hello world"`. -/
theorem listen_one_shot :
    (∀ r : Recognition,
      r.listenSession.lang = r.options.lang ∧
      r.listenSession.continuous = false ∧
      r.listenSession.interimResults = false) ∧
    (∀ (pre : List TaggedEvent) (results : List SpeechResult) (i : Nat)
        (res : SpeechResult) (a : SpeechAlt) (rest : List TaggedEvent),
        (∀ e ∈ pre, settlesListen e = false) →
        results[i]? = some res → res.alts[0]? = some a → res.isFinal = true →
        listenOutcome (pre ++ TaggedEvent.result results i :: rest)
          = ListenOutcome.resolved a.transcript) ∧
    (∀ (pre rest : List TaggedEvent),
        (∀ e ∈ pre, settlesListen e = false) →
        listenOutcome (pre ++ TaggedEvent.error :: rest) = ListenOutcome.rejected) ∧
    recognitionDefault.listenSession
      = { lang := "en-US", continuous := false, interimResults := false } ∧
    listenOutcome [TaggedEvent.result [⟨true, [⟨"hello world", 87/100⟩]⟩] 0]
      = ListenOutcome.resolved "hello world" := by
  refine ⟨fun r => ⟨rfl, rfl, rfl⟩, ?_, ?_, rfl, rfl⟩
  · intro pre results i res a rest hpre h1 h2 _hfin
    induction pre with
    | nil => simp [listenOutcome, h1, h2]
    | cons e pre ih =>
      rw [List.cons_append, listenOutcome_skip (hpre e (List.mem_cons_self e pre))]
      exact ih (fun x hx => hpre x (List.mem_cons_of_mem e hx))
  · intro pre rest hpre
    induction pre with
    | nil => rfl
    | cons e pre ih =>
      rw [List.cons_append, listenOutcome_skip (hpre e (List.mem_cons_self e pre))]
      exact ih (fun x hx => hpre x (List.mem_cons_of_mem e hx))

/-- C6, witness: after a non-settling `start` event, a final result with top
candidate `hello world` resolves the listen promise with that transcript. -/
theorem listen_one_shot_witness :
    listenOutcome ([TaggedEvent.start] ++
        TaggedEvent.result [⟨true, [⟨"hello world", 87/100⟩]⟩] 0 :: [])
      = ListenOutcome.resolved "hello world" :=
  listen_one_shot.2.1 [TaggedEvent.start] [⟨true, [⟨"hello world", 87/100⟩]⟩] 0
    ⟨true, [⟨"hello world", 87/100⟩]⟩ ⟨"hello world", 87/100⟩ []
    (by decide) rfl rfl rfl

/-- C7: every numeric option passed through `use` is stored clamped to its
domain — volume to `[0, 1]`, rate to `[0.1, 10]`, pitch to `[0, 2]` — the
three clampings are idempotent, and `speak('hi', {volume: 5})` dispatches
an utterance whose stored volume is `1`. -/
theorem use_clamps_options :
    (∀ (s : Synthesis) (c : SynthesisConfig),
      (s.use c).options.volume = clamp 0 1 (c.volume.getD s.options.volume) ∧
      (s.use c).options.rate = clamp (1/10) 10 (c.rate.getD s.options.rate) ∧
      (s.use c).options.pitch = clamp 0 2 (c.pitch.getD s.options.pitch)) ∧
    (∀ v : ℚ,
      clamp 0 1 (clamp 0 1 v) = clamp 0 1 v ∧
      clamp (1/10) 10 (clamp (1/10) 10 v) = clamp (1/10) 10 v ∧
      clamp 0 2 (clamp 0 2 v) = clamp 0 2 v) ∧
    synthesisDefault.speakTextWith "hi" { volume := some 5 } smallCatalog
      = SpeakOutcome.dispatched
          { voice := some fredVoice, text := "hi", volume := 1, rate := 1, pitch := 1 } := by
  refine ⟨fun s c => ⟨rfl, rfl, rfl⟩,
    fun v => ⟨clamp_idem (by norm_num), clamp_idem (by norm_num),
      clamp_idem (by norm_num)⟩, ?_⟩
  have hv : clamp 0 1 ((5 : ℚ)) = 1 := clamp_of_ge (by norm_num)
  have hr : clamp (1/10) 10 (1 : ℚ) = 1 := clamp_of_mem (by norm_num) (by norm_num)
  have hp : clamp 0 2 (1 : ℚ) = 1 := clamp_of_mem (by norm_num) (by norm_num)
  simp only [Synthesis.speakTextWith, Synthesis.use, Synthesis.speakNoArgs,
    synthesisDefault, Option.getD, hv, hr, hp]
  rfl

/-- C8: `Recognition.use` produces a new instance whose options take the
override's fields where present and the receiver's fields otherwise (the
receiver, an immutable value, is untouched); with an empty override the
derived instance equals the receiver. -/
theorem recognition_use_merges :
    ∀ (r : Recognition) (p : RecognitionOverride),
      (r.use p).options.lang = p.lang.getD r.options.lang ∧
      (r.use p).options.continuous = p.continuous.getD r.options.continuous ∧
      (r.use p).options.interimResults = p.interimResults.getD r.options.interimResults ∧
      (r.use p).options.maxAlternatives
        = p.maxAlternatives.getD r.options.maxAlternatives ∧
      r.use emptyOverride = r :=
  fun _ _ => ⟨rfl, rfl, rfl, rfl, rfl⟩

/-- C9: a second `unsubscribe` does not change the session state the first one
produced — the host stop control is invoked again, but stopping an
already-stopped session is a no-op, so there is no observable side effect
beyond the first call. -/
theorem unsubscribe_idempotent :
    ∀ h : SubscriptionHandle,
      (unsubscribe h).session = SessionState.stopped ∧
      (unsubscribe (unsubscribe h)).session = (unsubscribe h).session ∧
      (unsubscribe (unsubscribe h)).stopCalls = h.stopCalls + 2 :=
  fun _ => ⟨rfl, rfl, rfl⟩

/-- C10: the default synthesis instance stores in-domain options, `use` always
outputs in-domain options (it re-clamps carried-over values too), hence
every instance reachable from the default through a chain of `use` calls
stores volume in `[0, 1]`, rate in `[0.1, 10]` and pitch in `[0, 2]`. -/
theorem synthesis_reachable_in_domain :
    inDomain synthesisDefault.options ∧
    (∀ (s : Synthesis) (c : SynthesisConfig), inDomain ((s.use c).options)) ∧
    (∀ cs : List SynthesisConfig,
      inDomain ((useChain synthesisDefault cs).options)) := by
  have hdef : inDomain synthesisDefault.options := by
    simp only [synthesisDefault, inDomain]
    norm_num
  exact ⟨hdef, use_options_inDomain, fun cs => useChain_inDomain cs synthesisDefault hdef⟩
